import Mathlib

/-!
Verification of the deferred-publishing subsystem of the AI-Auto-Posting
website (src/server.py): the file-backed scheduled-post job store, the
background scheduler loop, the YouTube credential acquisition, the simple
resumable upload, and the job API route handlers
(api_schedule_post, api_cancel_scheduled, api_execute_post,
api_delete_scheduled_post).

Python strings are modelled as Lean `String` (a sequence of characters);
Python dict job records are modelled as a `Job` structure whose `Option`
fields stand for keys that may be absent; POSIX timestamps are modelled as
`Int`; `datetime.fromisoformat(...).timestamp()` is modelled by an abstract
parameter `parse : String → Option Int` (`none` = the call raises).
-/

namespace AutoPost

/-- A scheduled-post job record, as created by `api_schedule_post`
(server.py lines 4170-4183) and mutated by the scheduler loop and the
cancel / execute / delete handlers.  `error`, `executed_at` and
`youtube_url` model dict keys that are absent (`none`) until some handler
sets them. -/
structure Job where
  id : String
  user_id : String
  platform : String
  video_path : String
  filename : String
  title : String
  description : String
  tags : List String
  privacy : String
  run_at_iso : String
  status : String
  created_at : String
  error : Option String := none
  executed_at : Option String := none
  youtube_url : Option String := none
deriving Repr, DecidableEq

/-- Python `a or b` on an optional string: `None` and `""` are falsy. -/
def pyOrStr (o : Option String) (d : String) : String :=
  match o with
  | some s => if s = "" then d else s
  | none => d

/-- Python falsiness of an optional string (`not x`). -/
def falsyOpt (o : Option String) : Bool :=
  match o with
  | some s => s = ""
  | none => true

/-- Model of `_parse_iso` (server.py lines 776-780): `datetime.fromisoformat(s).timestamp()`,
returning `0.0` when parsing raises. -/
def parse_iso (parse : String → Option Int) (s : String) : Int :=
  (parse s).getD 0

/-- The request body of `/api/schedule-post`, with each field an optional
string as produced by `data.get(...)`. -/
structure ScheduleReq where
  platform : Option String := none
  filename : Option String := none
  video : Option String := none
  video_path : Option String := none
  date : Option String := none
  time : Option String := none
  caption : Option String := none
  hashtags : Option String := none
  title : Option String := none
deriving Repr, DecidableEq

/-- Python `t.lstrip('#')`: drop every leading `#`. -/
def lstripHash (t : String) : String :=
  ⟨t.toList.dropWhile (fun c => c = '#')⟩

/-- Python `s.lower()`, character by character. -/
def pyLower (s : String) : String :=
  ⟨s.toList.map Char.toLower⟩

/-- Python `t.startswith('#')`. -/
def startsWithHash (t : String) : Bool :=
  match t.toList with
  | '#' :: _ => true
  | _ => false

/-- Helper for `pySplitWs`: accumulate the current word (reversed) while
scanning the characters. -/
def wsSplitAux : List Char → List Char → List String
  | [], acc => if acc.isEmpty then [] else [⟨acc.reverse⟩]
  | c :: cs, acc =>
    if c.isWhitespace then
      if acc.isEmpty then wsSplitAux cs []
      else (⟨acc.reverse⟩ : String) :: wsSplitAux cs []
    else wsSplitAux cs (c :: acc)

/-- Python `s.split()` with no argument: split on runs of whitespace and
drop empty pieces. -/
def pySplitWs (s : String) : List String :=
  wsSplitAux s.toList []

/-- server.py line 4169: `[t.lstrip('#') for t in (hashtags or '').split() if t.startswith('#')]`. -/
def extractTags (hashtags : String) : List String :=
  ((pySplitWs hashtags).filter startsWithHash).map lstripHash

/-- server.py line 4161: `run_at_iso = f"{date_str}T{time_str}:00"`. -/
def runAtIso (req : ScheduleReq) : String :=
  (req.date.getD "") ++ "T" ++ (req.time.getD "") ++ ":00"

/-- Response of a schedule request: a created job or an error message. -/
inductive ScheduleResp where
  | ok (j : Job)
  | err (msg : String)
deriving Repr, DecidableEq

/-- Model of `api_schedule_post` (server.py lines 4141-4190) for an authenticated
user `uid`; `newId` models `str(uuid.uuid4())`, `createdAt` models
`datetime.utcnow().isoformat()`.  Returns the HTTP-level outcome and the
job list written back by `_save_schedules`. -/
def api_schedule_post (parse : String → Option Int) (now : Int)
    (uid newId createdAt : String) (req : ScheduleReq)
    (schedules : List Job) : ScheduleResp × List Job :=
  let platform := pyLower (pyOrStr req.platform "youtube")
  if platform ≠ "youtube" then
    (.err "Only YouTube scheduling is supported at the moment", schedules)
  else
    let filename := pyOrStr req.filename (pyOrStr req.video "")
    let video_path := pyOrStr req.video_path ("trimmed/" ++ filename)
    let caption := pyOrStr req.caption ""
    let hashtags := pyOrStr req.hashtags ""
    let title := pyOrStr req.title ""
    if falsyOpt req.date || falsyOpt req.time || filename = "" then
      (.err "Missing required fields (filename, date, time)", schedules)
    else
      match parse (runAtIso req) with
      | none => (.err "Invalid date/time format", schedules)
      | some ts =>
        if ts ≤ now then
          (.err "Scheduled time must be in the future", schedules)
        else
          let job : Job :=
            { id := newId, user_id := uid, platform := platform,
              video_path := video_path, filename := filename, title := title,
              description :=
                caption ++ (if hashtags ≠ "" then "\n\n" ++ hashtags else ""),
              tags := extractTags hashtags, privacy := "public",
              run_at_iso := runAtIso req, status := "pending",
              created_at := createdAt }
          (.ok job, schedules ++ [job])

/-- The success dict built by `upload_video_simple` (server.py lines
320-327); the boolean `success` key is modelled by the `UploadResult.ok`
constructor. -/
structure UploadOk where
  video_id : String
  video_url : String
  youtube_url : String
  title : String
  upload_time : String
deriving Repr, DecidableEq

/-- Python `result.get(key, dflt)` on the success dict: the keys present
are exactly `video_id`, `video_url`, `youtube_url`, `title` and
`upload_time` (the `success` key holds a boolean, not a string); every
other key, including `url`, yields the default. -/
def UploadOk.get (r : UploadOk) (key dflt : String) : String :=
  if key = "video_id" then r.video_id
  else if key = "video_url" then r.video_url
  else if key = "youtube_url" then r.youtube_url
  else if key = "title" then r.title
  else if key = "upload_time" then r.upload_time
  else dflt

/-- Outcome of `upload_video_simple`: a success dict or a failure dict
whose `error` key is always a string (see the three failure returns at
server.py lines 279-283, 335 and 338). -/
inductive UploadResult where
  | ok (r : UploadOk)
  | fail (error : String)
deriving Repr, DecidableEq

/-- One response of `request.next_chunk()` at server.py line 310:
another chunk was accepted (`progress`), the platform reported completion
with a video id (`complete`), or the call raised (`httpError`, caught at
line 329 and turned into a failure dict). -/
inductive ChunkStep where
  | progress
  | complete (videoId : String)
  | httpError (msg : String)
deriving Repr, DecidableEq

/-- The `while response is None` loop of `upload_video_simple`
(server.py lines 308-327), driven by the transport's list of chunk
responses.  Returns the resulting dict together with the number of
`next_chunk` calls made; `none` models a transport that never completes
within the given responses (the real loop would keep calling). -/
def uploadLoop (title uploadTime : String) :
    List ChunkStep → Option UploadResult × Nat
  | [] => (none, 0)
  | .progress :: rest =>
    ((uploadLoop title uploadTime rest).1, (uploadLoop title uploadTime rest).2 + 1)
  | .complete vid :: _ =>
    (some (.ok { video_id := vid,
                 video_url := "https://www.youtube.com/watch?v=" ++ vid,
                 youtube_url := "https://www.youtube.com/watch?v=" ++ vid,
                 title := title, upload_time := uploadTime }), 1)
  | .httpError msg :: _ =>
    (some (.fail ("YouTube HTTP error: " ++ msg)), 1)

/-- Model of `upload_video_simple` (server.py lines 271-338): authentication check,
then the chunk loop.  There is no retry of a failed chunk: the first
raised `HttpError` aborts the whole upload (the `except` handlers at
lines 329-338 return a failure dict).  `authOk` models whether
`authenticate_youtube()` returned a service. -/
def upload_video_simple (authOk : Bool) (steps : List ChunkStep)
    (title uploadTime : String) : Option UploadResult × Nat :=
  if authOk then uploadLoop title uploadTime steps
  else (some (.fail "Failed to authenticate with YouTube API"), 0)

/-- The metadata request body built by `upload_video_simple`
(server.py lines 285-295): title sliced to 100 characters, description to
5000, `tags or []`, privacy passed through.  `tags = none` models a
Python `None` argument. -/
structure RequestBody where
  categoryId : String
  title : String
  description : String
  tags : List String
  privacyStatus : String
deriving Repr, DecidableEq

/-- Python slicing `s[:n]` on a string. -/
def pySlice (s : String) (n : Nat) : String :=
  ⟨s.toList.take n⟩

/-- server.py lines 285-295: the `request_body` dict. -/
def buildRequestBody (title description : String)
    (tags : Option (List String)) (privacy : String) : RequestBody :=
  { categoryId := "22",
    title := pySlice title 100,
    description := pySlice description 5000,
    tags := tags.getD [],
    privacyStatus := privacy }

/-- State of a loaded OAuth credential object.  `valid` in the Google
library is `token is not None and not expired`. -/
structure CredState where
  hasToken : Bool
  expired : Bool
  hasRefreshToken : Bool
deriving Repr, DecidableEq

def CredState.valid (c : CredState) : Bool :=
  c.hasToken && !c.expired

/-- Environment of one `authenticate_youtube()` call (server.py lines
218-269): the credential loadable from the chosen token file
(`none` = file missing or unparsable), the credential loadable from the
root `youtube_token.json` fallback, whether the chosen token file already
is the root path, whether `client_secrets.json` exists, whether a
production marker (`FLY_APP_NAME`, `FLY_MACHINE_ID` or
`FLASK_ENV=production`) is set, and whether `credentials.refresh`
succeeds. -/
structure AuthEnv where
  staticToken : Option CredState
  rootToken : Option CredState
  tokenFileIsRoot : Bool
  clientSecretsExists : Bool
  isProduction : Bool
  refreshOk : Bool
deriving Repr, DecidableEq

/-- Outcome of `authenticate_youtube()`: a built service, `None`
(the NotConfigured-style failure), or entering the interactive
`flow.run_local_server(port=8080)` consent flow (server.py lines
258-259). -/
inductive AuthOutcome where
  | service (c : CredState)
  | notConfigured
  | interactiveFlow
deriving Repr, DecidableEq

/-- server.py lines 226-237: load the credential from the token file,
falling back to the root `youtube_token.json` when the token file gave
nothing and is not itself the root path. -/
def credAfterLoad (env : AuthEnv) : Option CredState :=
  match env.staticToken with
  | some c => some c
  | none => if env.tokenFileIsRoot then none else env.rootToken

/-- server.py lines 240-248: if the loaded credential is expired and has a
refresh token, refresh it (a fresh, unexpired token on success; the
credential is dropped on failure). -/
def credAfterRefresh (env : AuthEnv) : Option CredState :=
  match credAfterLoad env with
  | some c =>
    if c.expired && c.hasRefreshToken then
      if env.refreshOk then some { c with hasToken := true, expired := false }
      else none
    else some c
  | none => none

/-- server.py lines 250-266: with no valid credential, return `None` when
`client_secrets.json` is missing or a production marker is set; otherwise
run the interactive local-server consent flow. -/
def authFallback (env : AuthEnv) : AuthOutcome :=
  if !env.clientSecretsExists then .notConfigured
  else if env.isProduction then .notConfigured
  else .interactiveFlow

/-- Model of `authenticate_youtube` (server.py lines 218-269). -/
def authenticate_youtube (env : AuthEnv) : AuthOutcome :=
  match credAfterRefresh env with
  | some c => if c.valid then .service c else authFallback env
  | none => authFallback env

/-- Whether the scheduler selects a job on a tick (server.py line 790):
`status == 'pending'` and `_parse_iso(run_at_iso) <= now`. -/
def dueP (parse : String → Option Int) (now : Int) (j : Job) : Bool :=
  j.status == "pending" && decide (parse_iso parse j.run_at_iso ≤ now)

/-- Per-job execution inside the scheduler loop (server.py lines 805-834):
on success the job's status becomes `uploaded` (the platform id is written
only to the separate `youtube_uploads.json` file, not to the job record);
on failure the status becomes `failed` and the `error` key is set. -/
def processJob (uploadFn : Job → UploadResult) (j : Job) : Job :=
  match uploadFn j with
  | .ok _ => { j with status := "uploaded" }
  | .fail e => { j with status := "failed", error := some e }

/-- One tick of `_scheduler_loop` (server.py lines 786-838): rebuild the
job list, executing each selected job and keeping every other job
unchanged, then save the whole list.  `uploadFn` gives the result of
`upload_video_simple` for each job. -/
def tickJobs (parse : String → Option Int) (uploadFn : Job → UploadResult)
    (now : Int) : List Job → List Job
  | [] => []
  | j :: rest =>
    (if dueP parse now j then processJob uploadFn j else j) ::
      tickJobs parse uploadFn now rest

/-- The status field each selected job still carries at the moment the
tick invokes `upload_video_simple` (server.py line 805): the tick's trace
of `(job id, status at the upload call)` pairs.  The job dict is only
mutated after the call returns, so the recorded status is the one under
which the upload runs. -/
def tickTrace (parse : String → Option Int) (now : Int) :
    List Job → List (String × String)
  | [] => []
  | j :: rest =>
    if dueP parse now j then (j.id, j.status) :: tickTrace parse now rest
    else tickTrace parse now rest

/-- HTTP-level outcome of `/api/execute-post`. -/
inductive ExecResp where
  | notFound
  | notPending
  | ran (r : UploadResult)
deriving Repr, DecidableEq

/-- The job mutation of `api_execute_post` (server.py lines 4300-4309):
on success, status `posted`, `executed_at` set, and
`youtube_url = result.get('url', '')` — the success dict has no `url`
key, so the empty string is stored; on failure, status `failed` and the
`error` key set. -/
def executeJobUpdate (uploadFn : Job → UploadResult) (nowIso : String)
    (j : Job) : ExecResp × Job :=
  match uploadFn j with
  | .ok r =>
    (.ran (.ok r),
      { j with status := "posted", executed_at := some nowIso,
               youtube_url := some (UploadOk.get r "url" "") })
  | .fail e =>
    (.ran (.fail e),
      { j with status := "failed", executed_at := some nowIso,
               error := some e })

/-- Model of `api_execute_post` (server.py lines 4259-4322): find the first job
matching id and owner; reject when absent or not `pending`; otherwise run
the upload synchronously and save the updated list. -/
def api_execute_post (uploadFn : Job → UploadResult) (nowIso : String)
    (uid jid : String) : List Job → ExecResp × List Job
  | [] => (.notFound, [])
  | j :: rest =>
    if j.id = jid ∧ j.user_id = uid then
      if j.status = "pending" then
        ((executeJobUpdate uploadFn nowIso j).1,
          (executeJobUpdate uploadFn nowIso j).2 :: rest)
      else (.notPending, j :: rest)
    else
      ((api_execute_post uploadFn nowIso uid jid rest).1,
        j :: (api_execute_post uploadFn nowIso uid jid rest).2)

/-- Model of `api_cancel_scheduled` (server.py lines 4237-4257): flip the first job
matching id, owner and `pending` status to `cancelled`; return the
`updated` flag and the saved list. -/
def api_cancel_scheduled (uid jid : String) : List Job → Bool × List Job
  | [] => (false, [])
  | j :: rest =>
    if j.id = jid ∧ j.user_id = uid ∧ j.status = "pending" then
      (true, { j with status := "cancelled" } :: rest)
    else
      ((api_cancel_scheduled uid jid rest).1,
        j :: (api_cancel_scheduled uid jid rest).2)

/-- Model of `api_delete_scheduled_post` (server.py lines 4324-4354): pop the first
job matching id and owner — with no check of its status. -/
def api_delete_scheduled_post (uid jid : String) : List Job → Bool × List Job
  | [] => (false, [])
  | j :: rest =>
    if j.id = jid ∧ j.user_id = uid then
      (true, rest)
    else
      ((api_delete_scheduled_post uid jid rest).1,
        j :: (api_delete_scheduled_post uid jid rest).2)

/-- Job-store states reachable from the empty store through any sequence
of schedule, cancel, execute-now, delete and scheduler-tick operations. -/
inductive Reachable : List Job → Prop where
  | init : Reachable []
  | schedule (parse : String → Option Int) (now : Int)
      (uid newId createdAt : String) (req : ScheduleReq) (s : List Job) :
      Reachable s →
      Reachable (api_schedule_post parse now uid newId createdAt req s).2
  | cancel (uid jid : String) (s : List Job) :
      Reachable s → Reachable (api_cancel_scheduled uid jid s).2
  | execute (uploadFn : Job → UploadResult) (nowIso uid jid : String)
      (s : List Job) :
      Reachable s → Reachable (api_execute_post uploadFn nowIso uid jid s).2
  | delete (uid jid : String) (s : List Job) :
      Reachable s → Reachable (api_delete_scheduled_post uid jid s).2
  | tick (parse : String → Option Int) (uploadFn : Job → UploadResult)
      (now : Int) (s : List Job) :
      Reachable s → Reachable (tickJobs parse uploadFn now s)

/-! Section: Concrete data for witnesses and counterexamples -/

/-- A constant timestamp parser: every ISO string reads as time 100. -/
def parse100 : String → Option Int := fun _ => some 100

/-- A well-formed schedule request. -/
def demoReq : ScheduleReq :=
  { platform := none, filename := some "clip.mp4", video := none,
    video_path := none, date := some "2099-01-01", time := some "10:00",
    caption := some "Hello", hashtags := some "#fun #ai",
    title := some "My video" }

/-- The store after scheduling `demoReq` at time 50 (run time parses
to 100, in the future). -/
def demoStore0 : List Job :=
  (api_schedule_post parse100 50 "u1" "job-1" "2026-01-01T00:00:00"
    demoReq []).2

/-- The job `api_schedule_post` creates from `demoReq`. -/
def demoScheduledJob : Job :=
  { id := "job-1", user_id := "u1", platform := "youtube",
    video_path := "trimmed/clip.mp4", filename := "clip.mp4",
    title := "My video", description := "Hello\n\n#fun #ai",
    tags := ["fun", "ai"], privacy := "public",
    run_at_iso := "2099-01-01T10:00:00", status := "pending",
    created_at := "2026-01-01T00:00:00" }

/-- A concrete successful upload result. -/
def demoOk : UploadOk :=
  { video_id := "abc123",
    video_url := "https://www.youtube.com/watch?v=abc123",
    youtube_url := "https://www.youtube.com/watch?v=abc123",
    title := "My video", upload_time := "2099-01-01T10:00:05" }

/-- A transport on which every job's upload succeeds with `demoOk`. -/
def okUpload : Job → UploadResult := fun _ => .ok demoOk

/-- A transport on which every job's upload fails. -/
def failUpload : Job → UploadResult := fun _ => .fail "boom"

/-- The store after a scheduler tick at time 200 with a succeeding
transport. -/
def demoTickStoreOk : List Job := tickJobs parse100 okUpload 200 demoStore0

/-- The store after a scheduler tick at time 200 with a failing
transport. -/
def demoTickStoreFail : List Job :=
  tickJobs parse100 failUpload 200 demoStore0

/-! Section: Helper lemmas -/

theorem processJob_id (uploadFn : Job → UploadResult) (j : Job) :
    (processJob uploadFn j).id = j.id := by
  cases h : uploadFn j <;> simp [processJob, h]

theorem dueP_pending {parse : String → Option Int} {now : Int} {j : Job}
    (h : dueP parse now j = true) : j.status = "pending" := by
  simp only [dueP, Bool.and_eq_true, beq_iff_eq, decide_eq_true_eq] at h
  exact h.1

/-- Every job in a post-schedule store is an old job or the freshly
created pending job (with no `error` and no `youtube_url` key). -/
theorem mem_schedule_cases {parse : String → Option Int} {now : Int}
    {uid newId createdAt : String} {req : ScheduleReq} {s : List Job} {j : Job}
    (h : j ∈ (api_schedule_post parse now uid newId createdAt req s).2) :
    j ∈ s ∨ (j.status = "pending" ∧ j.error = none ∧ j.youtube_url = none) := by
  simp only [api_schedule_post] at h
  split at h
  · exact Or.inl h
  · split at h
    · exact Or.inl h
    · split at h
      · exact Or.inl h
      · split at h
        · exact Or.inl h
        · rcases List.mem_append.mp h with hmem | hnew
          · exact Or.inl hmem
          · rcases List.mem_singleton.mp hnew with rfl
            exact Or.inr ⟨rfl, rfl, rfl⟩

/-- Every job in a post-cancel store is an old job or the cancelled copy
of an old pending job. -/
theorem mem_cancel_cases {uid jid : String} {s : List Job} {j : Job}
    (h : j ∈ (api_cancel_scheduled uid jid s).2) :
    j ∈ s ∨ ∃ j0 ∈ s, j0.status = "pending" ∧
      j = { j0 with status := "cancelled" } := by
  induction s with
  | nil => simp [api_cancel_scheduled] at h
  | cons a rest ih =>
    simp only [api_cancel_scheduled] at h
    split at h
    case isTrue hc =>
      rcases List.mem_cons.mp h with rfl | hmem
      · exact Or.inr ⟨a, List.mem_cons_self a rest, hc.2.2, rfl⟩
      · exact Or.inl (List.mem_cons_of_mem a hmem)
    case isFalse hc =>
      rcases List.mem_cons.mp h with rfl | hmem
      · exact Or.inl (List.mem_cons_self _ rest)
      · rcases ih hmem with h1 | ⟨j0, hj0, hp, hEq⟩
        · exact Or.inl (List.mem_cons_of_mem a h1)
        · exact Or.inr ⟨j0, List.mem_cons_of_mem a hj0, hp, hEq⟩

/-- Every job in a post-execute store is an old job or the executed copy
of an old pending job. -/
theorem mem_execute_cases {uploadFn : Job → UploadResult}
    {nowIso uid jid : String} {s : List Job} {j : Job}
    (h : j ∈ (api_execute_post uploadFn nowIso uid jid s).2) :
    j ∈ s ∨ ∃ j0 ∈ s, j0.status = "pending" ∧
      j = (executeJobUpdate uploadFn nowIso j0).2 := by
  induction s with
  | nil => simp [api_execute_post] at h
  | cons a rest ih =>
    simp only [api_execute_post] at h
    split at h
    case isTrue hc =>
      split at h
      case isTrue hp =>
        rcases List.mem_cons.mp h with rfl | hmem
        · exact Or.inr ⟨a, List.mem_cons_self a rest, hp, rfl⟩
        · exact Or.inl (List.mem_cons_of_mem a hmem)
      case isFalse hp => exact Or.inl h
    case isFalse hc =>
      rcases List.mem_cons.mp h with rfl | hmem
      · exact Or.inl (List.mem_cons_self _ rest)
      · rcases ih hmem with h1 | ⟨j0, hj0, hp, hEq⟩
        · exact Or.inl (List.mem_cons_of_mem a h1)
        · exact Or.inr ⟨j0, List.mem_cons_of_mem a hj0, hp, hEq⟩

/-- Delete only removes jobs: every remaining job was already there. -/
theorem mem_delete_cases {uid jid : String} {s : List Job} {j : Job}
    (h : j ∈ (api_delete_scheduled_post uid jid s).2) : j ∈ s := by
  induction s with
  | nil => simp [api_delete_scheduled_post] at h
  | cons a rest ih =>
    simp only [api_delete_scheduled_post] at h
    split at h
    · exact List.mem_cons_of_mem a h
    · rcases List.mem_cons.mp h with rfl | hmem
      · exact List.mem_cons_self _ rest
      · exact List.mem_cons_of_mem a (ih hmem)

/-- Every job in a post-tick store is an old job or the processed copy of
an old due pending job. -/
theorem mem_tick_cases {parse : String → Option Int}
    {uploadFn : Job → UploadResult} {now : Int} {s : List Job} {j : Job}
    (h : j ∈ tickJobs parse uploadFn now s) :
    j ∈ s ∨ ∃ j0 ∈ s, dueP parse now j0 = true ∧
      j = processJob uploadFn j0 := by
  induction s with
  | nil => simp [tickJobs] at h
  | cons a rest ih =>
    simp only [tickJobs] at h
    rcases List.mem_cons.mp h with rfl | hmem
    · by_cases hd : dueP parse now a
      · exact Or.inr ⟨a, List.mem_cons_self a rest, hd, by rw [if_pos hd]⟩
      · rw [if_neg hd]
        exact Or.inl (List.mem_cons_self _ rest)
    · rcases ih hmem with h1 | ⟨j0, hj0, hd, hEq⟩
      · exact Or.inl (List.mem_cons_of_mem a h1)
      · exact Or.inr ⟨j0, List.mem_cons_of_mem a hj0, hd, hEq⟩

/-! Section: Claim C4 -/

/-- C4: a cancel call succeeds (returns `updated = true`) if and only if
some job in the store has the requested id, is owned by the caller and is
in status `pending`; when it fails, the job list written back equals the
one read. -/
theorem cancel_succeeds_iff (uid jid : String) (s : List Job) :
    ((api_cancel_scheduled uid jid s).1 = true ↔
      ∃ j ∈ s, j.id = jid ∧ j.user_id = uid ∧ j.status = "pending") ∧
    ((api_cancel_scheduled uid jid s).1 = false →
      (api_cancel_scheduled uid jid s).2 = s) := by
  induction s with
  | nil =>
    constructor
    · simp [api_cancel_scheduled]
    · intro _; rfl
  | cons a rest ih =>
    by_cases hc : a.id = jid ∧ a.user_id = uid ∧ a.status = "pending"
    · constructor
      · simp only [api_cancel_scheduled, if_pos hc]
        exact iff_of_true trivial ⟨a, List.mem_cons_self a rest, hc⟩
      · intro hfalse
        simp only [api_cancel_scheduled, if_pos hc] at hfalse
        cases hfalse
    · constructor
      · simp only [api_cancel_scheduled, if_neg hc]
        rw [ih.1]
        constructor
        · rintro ⟨j, hj, hprops⟩
          exact ⟨j, List.mem_cons_of_mem a hj, hprops⟩
        · rintro ⟨j, hj, hprops⟩
          rcases List.mem_cons.mp hj with rfl | hmem
          · exact absurd hprops hc
          · exact ⟨j, hmem, hprops⟩
      · intro hfalse
        simp only [api_cancel_scheduled, if_neg hc] at hfalse ⊢
        rw [ih.2 hfalse]

/-- C4 witness: cancelling the pending demo job as its owner succeeds;
cancelling it as another user leaves the store unchanged. -/
theorem cancel_succeeds_iff_witness :
    (api_cancel_scheduled "u1" "job-1" demoStore0).1 = true ∧
    (api_cancel_scheduled "u2" "job-1" demoStore0).2 = demoStore0 :=
  ⟨(cancel_succeeds_iff "u1" "job-1" demoStore0).1.mpr
      ⟨demoScheduledJob, List.mem_singleton.mpr rfl, rfl, rfl, rfl⟩,
    (cancel_succeeds_iff "u2" "job-1" demoStore0).2 rfl⟩

/-! Section: Claim C6 -/

/-- C6 counterexample: delete removes a job whose status is `pending`,
contradicting the claim that only terminal jobs are removed. -/
theorem delete_removes_pending_counterexample :
    demoStore0.map Job.status = ["pending"] ∧
    (api_delete_scheduled_post "u1" "job-1" demoStore0).1 = true ∧
    (api_delete_scheduled_post "u1" "job-1" demoStore0).2 = [] :=
  ⟨rfl, rfl, rfl⟩

/-- C6 (amended): delete removes the job if and only if a job with the
requested id owned by the caller exists — with no status check at all, so
pending and running jobs are removed too; on failure the store is
unchanged. -/
theorem delete_removes_iff (uid jid : String) (s : List Job) :
    ((api_delete_scheduled_post uid jid s).1 = true ↔
      ∃ j ∈ s, j.id = jid ∧ j.user_id = uid) ∧
    ((api_delete_scheduled_post uid jid s).1 = false →
      (api_delete_scheduled_post uid jid s).2 = s) := by
  induction s with
  | nil =>
    constructor
    · simp [api_delete_scheduled_post]
    · intro _; rfl
  | cons a rest ih =>
    by_cases hc : a.id = jid ∧ a.user_id = uid
    · constructor
      · simp only [api_delete_scheduled_post, if_pos hc]
        exact iff_of_true trivial ⟨a, List.mem_cons_self a rest, hc⟩
      · intro hfalse
        simp only [api_delete_scheduled_post, if_pos hc] at hfalse
        cases hfalse
    · constructor
      · simp only [api_delete_scheduled_post, if_neg hc]
        rw [ih.1]
        constructor
        · rintro ⟨j, hj, hprops⟩
          exact ⟨j, List.mem_cons_of_mem a hj, hprops⟩
        · rintro ⟨j, hj, hprops⟩
          rcases List.mem_cons.mp hj with rfl | hmem
          · exact absurd hprops hc
          · exact ⟨j, hmem, hprops⟩
      · intro hfalse
        simp only [api_delete_scheduled_post, if_neg hc] at hfalse ⊢
        rw [ih.2 hfalse]

/-- C6 witness: deleting the demo job by its owner succeeds; deleting a
missing id leaves the store unchanged. -/
theorem delete_removes_iff_witness :
    (api_delete_scheduled_post "u1" "job-1" demoStore0).1 = true ∧
    (api_delete_scheduled_post "u1" "nope" demoStore0).2 = demoStore0 :=
  ⟨(delete_removes_iff "u1" "job-1" demoStore0).1.mpr
      ⟨demoScheduledJob, List.mem_singleton.mpr rfl, rfl, rfl⟩,
    (delete_removes_iff "u1" "nope" demoStore0).2 rfl⟩

/-! Section: Claim C9 -/

/-- C9: a scheduler tick removes no job — the ids of the written-back
list equal, in order, the ids of the list read — and every job not
selected as due is written back unchanged. -/
theorem tick_preserves_jobs (parse : String → Option Int)
    (uploadFn : Job → UploadResult) (now : Int) (s : List Job) :
    (tickJobs parse uploadFn now s).map Job.id = s.map Job.id ∧
    ∀ j ∈ s, dueP parse now j = false → j ∈ tickJobs parse uploadFn now s := by
  induction s with
  | nil =>
    refine ⟨rfl, ?_⟩
    intro j hj
    simp at hj
  | cons a rest ih =>
    constructor
    · simp only [tickJobs, List.map_cons]
      rw [ih.1]
      congr 1
      by_cases hd : dueP parse now a
      · rw [if_pos hd, processJob_id]
      · rw [if_neg hd]
    · intro j hj hnd
      rcases List.mem_cons.mp hj with rfl | hmem
      · simp only [tickJobs]
        rw [if_neg (by simp [hnd])]
        exact List.mem_cons_self _ _
      · simp only [tickJobs]
        exact List.mem_cons_of_mem _ (ih.2 j hmem hnd)

/-- C9 witness: at time 50 the demo job (due at 100) is not selected and
survives the tick unchanged. -/
theorem tick_preserves_jobs_witness :
    demoScheduledJob ∈ tickJobs parse100 failUpload 50 demoStore0 :=
  (tick_preserves_jobs parse100 failUpload 50 demoStore0).2 demoScheduledJob
    (List.mem_singleton.mpr rfl) rfl

/-! Section: Claim C10 -/

/-- C10: the metadata sent to the platform keeps only a prefix of the
caller's strings — the title cut to its first 100 characters and the
description to its first 5000 — while the tags list and the privacy value
are passed through unchanged. -/
theorem upload_metadata_truncation (title description : String)
    (tags : List String) (privacy : String) :
    (∃ r1, (buildRequestBody title description (some tags) privacy).title.toList
        ++ r1 = title.toList) ∧
    (buildRequestBody title description (some tags) privacy).title.toList.length
      = min 100 title.toList.length ∧
    (∃ r2, (buildRequestBody title description (some tags) privacy).description.toList
        ++ r2 = description.toList) ∧
    (buildRequestBody title description (some tags) privacy).description.toList.length
      = min 5000 description.toList.length ∧
    (buildRequestBody title description (some tags) privacy).tags = tags ∧
    (buildRequestBody title description (some tags) privacy).privacyStatus = privacy := by
  refine ⟨⟨title.toList.drop 100, ?_⟩, ?_,
          ⟨description.toList.drop 5000, ?_⟩, ?_, rfl, rfl⟩
  · exact List.take_append_drop 100 title.toList
  · exact List.length_take 100 title.toList
  · exact List.take_append_drop 5000 description.toList
  · exact List.length_take 5000 description.toList

/-! Section: Claim C5 -/

/-- A schedule request whose date and time parse to a future run time but
whose filename is missing. -/
def badReq : ScheduleReq :=
  { date := some "2099-01-01", time := some "10:00" }

/-- C5 counterexample: a request whose run time is parsable and in the
future (100 > 50) is still rejected with a validation error and creates
no job, because its filename is missing — refuting "otherwise it creates
exactly one new job". -/
theorem schedule_missing_filename_counterexample :
    parse100 (runAtIso badReq) = some 100 ∧ (50 : Int) < 100 ∧
    (api_schedule_post parse100 50 "u1" "id9" "c0" badReq []).1 =
      .err "Missing required fields (filename, date, time)" ∧
    (api_schedule_post parse100 50 "u1" "id9" "c0" badReq []).2 = [] :=
  ⟨rfl, by decide, rfl, rfl⟩

/-- C5 (amended): a request whose run time is unparsable or not in the
future always yields a validation error and adds no job; a request whose
platform (defaulted to youtube) is not youtube, or whose filename, date
or time field is missing or empty, also yields a validation error and
adds no job, whatever its run time; and a request passing all those
checks whose run time parses to a future instant creates exactly one new
pending job. -/
theorem schedule_validation (parse : String → Option Int) (now : Int)
    (uid newId createdAt : String) (req : ScheduleReq) (s : List Job) :
    ((parse (runAtIso req) = none ∨
        ∃ ts, parse (runAtIso req) = some ts ∧ ts ≤ now) →
      (∃ msg, (api_schedule_post parse now uid newId createdAt req s).1 =
        .err msg) ∧
      (api_schedule_post parse now uid newId createdAt req s).2 = s) ∧
    ((pyLower (pyOrStr req.platform "youtube") ≠ "youtube" ∨
        falsyOpt req.date = true ∨ falsyOpt req.time = true ∨
        pyOrStr req.filename (pyOrStr req.video "") = "") →
      (∃ msg, (api_schedule_post parse now uid newId createdAt req s).1 =
        .err msg) ∧
      (api_schedule_post parse now uid newId createdAt req s).2 = s) ∧
    (∀ ts, parse (runAtIso req) = some ts → now < ts →
      pyLower (pyOrStr req.platform "youtube") = "youtube" →
      falsyOpt req.date = false → falsyOpt req.time = false →
      pyOrStr req.filename (pyOrStr req.video "") ≠ "" →
      ∃ jb, (api_schedule_post parse now uid newId createdAt req s).1 =
          .ok jb ∧
        (api_schedule_post parse now uid newId createdAt req s).2 =
          s ++ [jb] ∧
        jb.status = "pending") := by
  constructor
  · intro hbad
    simp only [api_schedule_post]
    split
    · exact ⟨⟨_, rfl⟩, rfl⟩
    · split
      · exact ⟨⟨_, rfl⟩, rfl⟩
      · split
        · exact ⟨⟨_, rfl⟩, rfl⟩
        · rename_i ts heq
          split
          · exact ⟨⟨_, rfl⟩, rfl⟩
          · rename_i hle
            exfalso
            rcases hbad with hnone | ⟨ts2, hts2, hle2⟩
            · rw [heq] at hnone
              cases hnone
            · rw [heq] at hts2
              injection hts2 with h
              subst h
              exact hle hle2
  constructor
  · intro hbad
    simp only [api_schedule_post]
    split
    case isTrue => exact ⟨⟨_, rfl⟩, rfl⟩
    case isFalse hplat_ok =>
      split
      case isTrue => exact ⟨⟨_, rfl⟩, rfl⟩
      case isFalse hfields_ok =>
        exfalso
        rcases hbad with h | h | h | h
        · exact hplat_ok h
        · exact hfields_ok (by simp [h])
        · exact hfields_ok (by simp [h])
        · exact hfields_ok (by simp [h])
  · intro ts hts hfut hplat hdate htime hfile
    simp only [api_schedule_post]
    split
    · rename_i hpne
      exact absurd hplat hpne
    · split
      · rename_i hmiss
        rw [hdate, htime] at hmiss
        simp at hmiss
        exact absurd hmiss hfile
      · split
        · rename_i heq
          rw [hts] at heq
          cases heq
        · rename_i ts2 heq
          rw [hts] at heq
          injection heq with h
          subst h
          split
          · rename_i hle
            exact absurd hle (not_le.mpr hfut)
          · exact ⟨_, rfl, rfl, rfl⟩

/-- C5 witness: at time 200 the demo request (run time 100) is rejected
without adding a job; the filename-less request is rejected without
adding a job even though its run time is future; and at time 50 the demo
request creates exactly the demo pending job. -/
theorem schedule_validation_witness :
    (api_schedule_post parse100 200 "u1" "j2" "c0" demoReq []).2 = [] ∧
    (api_schedule_post parse100 50 "u1" "id9" "c0" badReq []).2 = [] ∧
    (api_schedule_post parse100 50 "u1" "job-1" "2026-01-01T00:00:00"
      demoReq []).2 = [] ++ [demoScheduledJob] := by
  refine ⟨?_, ?_, ?_⟩
  · exact ((schedule_validation parse100 200 "u1" "j2" "c0" demoReq []).1
      (Or.inr ⟨100, rfl, by decide⟩)).2
  · exact ((schedule_validation parse100 50 "u1" "id9" "c0" badReq []).2.1
      (Or.inr (Or.inr (Or.inr rfl)))).2
  · obtain ⟨jb, hok, hstore, _⟩ :=
      (schedule_validation parse100 50 "u1" "job-1" "2026-01-01T00:00:00"
        demoReq []).2.2 100 rfl (by decide) rfl rfl rfl (by decide)
    have h2 : (api_schedule_post parse100 50 "u1" "job-1"
        "2026-01-01T00:00:00" demoReq []).1 = .ok demoScheduledJob := rfl
    rw [hok] at h2
    injection h2 with h3
    rw [hstore, h3]

/-! Section: Claim C7 -/

/-- An environment with no stored credential at all, `client_secrets.json`
present and no production marker. -/
def noCredEnv : AuthEnv :=
  { staticToken := none, rootToken := none, tokenFileIsRoot := false,
    clientSecretsExists := true, isProduction := false, refreshOk := false }

/-- Like `noCredEnv` but with a production marker set. -/
def prodNoCredEnv : AuthEnv :=
  { staticToken := none, rootToken := none, tokenFileIsRoot := false,
    clientSecretsExists := true, isProduction := true, refreshOk := false }

/-- C7 counterexample: with no stored credential, `client_secrets.json`
present and no production marker, `authenticate_youtube` starts the
interactive local-server consent flow instead of returning the
NotConfigured-style `None`. -/
theorem auth_interactive_flow_counterexample :
    credAfterRefresh noCredEnv = none ∧
    authenticate_youtube noCredEnv = .interactiveFlow ∧
    AuthOutcome.interactiveFlow ≠ AuthOutcome.notConfigured :=
  ⟨rfl, rfl, by decide⟩

/-- C7 (amended): when no stored credential is usable (none loads, or the
loaded/refreshed one is invalid), `authenticate_youtube` returns the
NotConfigured-style failure exactly when `client_secrets.json` is missing
or a production marker is set; otherwise it initiates the interactive
consent flow. -/
theorem auth_no_usable_cred (env : AuthEnv)
    (h : ∀ c, credAfterRefresh env = some c → c.valid = false) :
    (env.clientSecretsExists = false ∨ env.isProduction = true →
      authenticate_youtube env = .notConfigured) ∧
    (env.clientSecretsExists = true → env.isProduction = false →
      authenticate_youtube env = .interactiveFlow) := by
  have hfb : authenticate_youtube env = authFallback env := by
    cases hcr : credAfterRefresh env with
    | none => simp [authenticate_youtube, hcr]
    | some c => simp [authenticate_youtube, hcr, h c hcr]
  refine ⟨?_, ?_⟩
  · intro hcase
    rw [hfb]
    unfold authFallback
    rcases hcase with h1 | h1
    · simp [h1]
    · by_cases hcs : env.clientSecretsExists <;> simp [hcs, h1]
  · intro h1 h2
    rw [hfb]
    unfold authFallback
    simp [h1, h2]

/-- C7 witness: in production with no credential the outcome is the
NotConfigured-style failure. -/
theorem auth_no_usable_cred_witness :
    authenticate_youtube prodNoCredEnv = .notConfigured :=
  (auth_no_usable_cred prodNoCredEnv
    (fun _ hc => Option.noConfusion hc)).1 (Or.inr rfl)

/-! Section: Claim C8 -/

/-- A transport that answers every chunk request with a transient
server error. -/
def transientSteps : List ChunkStep :=
  List.replicate 5 (ChunkStep.httpError "503 Service Unavailable")

/-- C8 counterexample: against a transport returning a transient error on
every chunk request, `upload_video_simple` makes exactly one chunk call
and fails — not the claimed retry budget of 5 attempts. -/
theorem upload_no_chunk_retry_counterexample :
    (upload_video_simple true transientSteps "My video" "t0").2 = 1 ∧
    (upload_video_simple true transientSteps "My video" "t0").1 =
      some (.fail "YouTube HTTP error: 503 Service Unavailable") ∧
    (1 : Nat) ≠ 5 :=
  ⟨rfl, rfl, by decide⟩

/-- C8 (amended): there is no chunk-level retry: the first transient
error aborts the upload after exactly one chunk request with a failure
result, and the scheduler tick then marks the due pending job `failed` on
that single attempt. -/
theorem upload_first_transient_fails (msg : String) (rest : List ChunkStep)
    (title ut : String) (parse : String → Option Int) (now : Int) (j : Job)
    (hst : j.status = "pending")
    (hdue : parse_iso parse j.run_at_iso ≤ now) :
    (upload_video_simple true (.httpError msg :: rest) title ut).2 = 1 ∧
    (upload_video_simple true (.httpError msg :: rest) title ut).1 =
      some (.fail ("YouTube HTTP error: " ++ msg)) ∧
    (tickJobs parse (fun _ => .fail ("YouTube HTTP error: " ++ msg)) now
      [j]).map Job.status = ["failed"] := by
  refine ⟨rfl, rfl, ?_⟩
  have hd : dueP parse now j = true := by
    simp [dueP, hst, hdue]
  simp [tickJobs, hd, processJob]

/-- C8 witness: the demo pending job, due at time 200, ends `failed`
after the single transient-error attempt. -/
theorem upload_first_transient_fails_witness :
    (tickJobs parse100
      (fun _ => .fail ("YouTube HTTP error: " ++ "503")) 200
      [demoScheduledJob]).map Job.status = ["failed"] :=
  (upload_first_transient_fails "503" [] "t" "t0" parse100 200
    demoScheduledJob rfl (by decide)).2.2

/-! Section: Claim C1 -/

theorem status_iff_helper {st : String} {o : Option String}
    (hne : st ≠ "failed") (ho : o = none) :
    (st = "failed" ↔ o.isSome = true) := by
  subst ho
  simp [hne]

theorem pending_error_none {j0 : Job}
    (hiff : j0.status = "failed" ↔ j0.error.isSome = true)
    (hp : j0.status = "pending") : j0.error = none := by
  rcases h : j0.error with _ | v
  · rfl
  · have hfail : j0.status = "failed" := hiff.mpr (by rw [h]; rfl)
    rw [hp] at hfail
    exact absurd hfail (by decide)

/-- C1 (amended): in every reachable store, a job's status is `failed`
exactly when its `error` key is set; the `uploaded ⇔ result_ref` half of
the claim does not hold (see the counterexample: the scheduler marks jobs
`uploaded` without setting any result field). -/
theorem reachable_failed_iff_error (s : List Job) (h : Reachable s) :
    ∀ j ∈ s, (j.status = "failed" ↔ j.error.isSome = true) := by
  induction h with
  | init =>
    intro j hj
    simp at hj
  | schedule parse now uid newId createdAt req s0 _ ih =>
    intro j hj
    rcases mem_schedule_cases hj with hmem | ⟨hst, herr, _⟩
    · exact ih j hmem
    · exact status_iff_helper (by rw [hst]; decide) herr
  | cancel uid jid s0 _ ih =>
    intro j hj
    rcases mem_cancel_cases hj with hmem | ⟨j0, hj0, hp, rfl⟩
    · exact ih j hmem
    · have herr := pending_error_none (ih j0 hj0) hp
      exact @status_iff_helper "cancelled" j0.error (by decide) herr
  | execute uploadFn nowIso uid jid s0 _ ih =>
    intro j hj
    rcases mem_execute_cases hj with hmem | ⟨j0, hj0, hp, rfl⟩
    · exact ih j hmem
    · have herr := pending_error_none (ih j0 hj0) hp
      cases huf : uploadFn j0 with
      | ok r =>
        simp only [executeJobUpdate, huf]
        exact @status_iff_helper "posted" j0.error (by decide) herr
      | fail e =>
        simp only [executeJobUpdate, huf]
        simp
  | delete uid jid s0 _ ih =>
    intro j hj
    exact ih j (mem_delete_cases hj)
  | tick parse uploadFn now s0 _ ih =>
    intro j hj
    rcases mem_tick_cases hj with hmem | ⟨j0, hj0, hd, rfl⟩
    · exact ih j hmem
    · have herr := pending_error_none (ih j0 hj0) (dueP_pending hd)
      cases huf : uploadFn j0 with
      | ok r =>
        simp only [processJob, huf]
        exact @status_iff_helper "uploaded" j0.error (by decide) herr
      | fail e =>
        simp only [processJob, huf]
        simp

/-- C1 counterexample: a reachable store (schedule, then a successful
scheduler tick) containing a job whose status is `uploaded` while its
result-reference field is unset — refuting `uploaded ⇔ result_ref`. -/
theorem uploaded_without_result_ref_counterexample :
    Reachable demoTickStoreOk ∧
    demoTickStoreOk.map Job.status = ["uploaded"] ∧
    demoTickStoreOk.map Job.youtube_url = [none] := by
  refine ⟨?_, rfl, rfl⟩
  exact Reachable.tick parse100 okUpload 200 demoStore0
    (Reachable.schedule parse100 50 "u1" "job-1" "2026-01-01T00:00:00"
      demoReq [] Reachable.init)

/-- C1 witness: the invariant applied to the reachable store produced by
a failing tick, at its failed job. -/
theorem reachable_failed_iff_error_witness :
    (({ demoScheduledJob with status := "failed", error := some "boom" }
      : Job).status = "failed") ↔
    ({ demoScheduledJob with status := "failed", error := some "boom" }
      : Job).error.isSome = true :=
  reachable_failed_iff_error demoTickStoreFail
    (Reachable.tick parse100 failUpload 200 demoStore0
      (Reachable.schedule parse100 50 "u1" "job-1" "2026-01-01T00:00:00"
        demoReq [] Reachable.init))
    _ (List.mem_singleton.mpr rfl)

/-! Section: Claim C2 -/

/-- C2 (amended): every job selected by a scheduler tick still carries
status `pending` at the moment its upload is invoked (the status is
rewritten only after the upload returns), and no reachable job ever has
status `running` — the code never writes that status. -/
theorem tick_upload_runs_on_pending :
    (∀ (parse : String → Option Int) (now : Int) (s : List Job)
        (e : String × String), e ∈ tickTrace parse now s →
      e.2 = "pending") ∧
    (∀ s, Reachable s → ∀ j ∈ s, j.status ≠ "running") := by
  constructor
  · intro parse now s
    induction s with
    | nil =>
      intro e he
      simp [tickTrace] at he
    | cons a rest ih =>
      intro e he
      simp only [tickTrace] at he
      split at he
      case isTrue hd =>
        rcases List.mem_cons.mp he with rfl | hmem
        · exact dueP_pending hd
        · exact ih e hmem
      case isFalse hd => exact ih e he
  · intro s h
    induction h with
    | init =>
      intro j hj
      simp at hj
    | schedule parse now uid newId createdAt req s0 _ ih =>
      intro j hj
      rcases mem_schedule_cases hj with hmem | ⟨hst, _, _⟩
      · exact ih j hmem
      · rw [hst]; decide
    | cancel uid jid s0 _ ih =>
      intro j hj
      rcases mem_cancel_cases hj with hmem | ⟨j0, hj0, _, rfl⟩
      · exact ih j hmem
      · exact (by decide : ("cancelled" : String) ≠ "running")
    | execute uploadFn nowIso uid jid s0 _ ih =>
      intro j hj
      rcases mem_execute_cases hj with hmem | ⟨j0, hj0, _, rfl⟩
      · exact ih j hmem
      · cases huf : uploadFn j0 with
        | ok r =>
          simp only [executeJobUpdate, huf]
          exact (by decide : ("posted" : String) ≠ "running")
        | fail e =>
          simp only [executeJobUpdate, huf]
          exact (by decide : ("failed" : String) ≠ "running")
    | delete uid jid s0 _ ih =>
      intro j hj
      exact ih j (mem_delete_cases hj)
    | tick parse uploadFn now s0 _ ih =>
      intro j hj
      rcases mem_tick_cases hj with hmem | ⟨j0, hj0, _, rfl⟩
      · exact ih j hmem
      · cases huf : uploadFn j0 with
        | ok r =>
          simp only [processJob, huf]
          exact (by decide : ("uploaded" : String) ≠ "running")
        | fail e =>
          simp only [processJob, huf]
          exact (by decide : ("failed" : String) ≠ "running")

/-- C2 counterexample: on a concrete tick the trace records the selected
job entering its upload with status `pending`, not the claimed
`running`. -/
theorem tick_trace_counterexample :
    tickTrace parse100 200 demoStore0 = [("job-1", "pending")] ∧
    ("pending" : String) ≠ "running" :=
  ⟨rfl, by decide⟩

/-- C2 witness: the amended theorem applied to the concrete trace entry
of the demo tick and to the reachable demo store. -/
theorem tick_upload_runs_on_pending_witness :
    (("job-1", "pending") : String × String).2 = "pending" ∧
    demoScheduledJob.status ≠ "running" :=
  ⟨tick_upload_runs_on_pending.1 parse100 200 demoStore0
      ("job-1", "pending") (List.mem_singleton.mpr rfl),
    tick_upload_runs_on_pending.2 demoStore0
      (Reachable.schedule parse100 50 "u1" "job-1" "2026-01-01T00:00:00"
        demoReq [] Reachable.init)
      demoScheduledJob (List.mem_singleton.mpr rfl)⟩

/-! Section: Claim C3 -/

/-- The store after executing the demo pending job immediately with a
successful upload. -/
def demoExecStore : List Job :=
  (api_execute_post okUpload "2026-01-02T00:00:00" "u1" "job-1"
    demoStore0).2

/-- C3: on a successful immediate execution the persisted job carries
status `posted` — not the `uploaded` the scheduler path and the spec use —
and its `youtube_url` field holds the empty string, because the handler
reads `result.get('url', '')` while the upload result only carries the
keys `video_id`, `video_url` and `youtube_url`; the platform-assigned
identifier is therefore lost. -/
theorem execute_now_wrong_status_and_empty_url :
    demoExecStore.map Job.status = ["posted"] ∧
    demoExecStore.map Job.youtube_url = [some ""] ∧
    UploadOk.get demoOk "url" "" = "" ∧
    demoOk.video_id = "abc123" ∧
    ("posted" : String) ≠ "uploaded" ∧
    (some "" : Option String) ≠
      some "https://www.youtube.com/watch?v=abc123" :=
  ⟨rfl, rfl, rfl, rfl, by decide, by decide⟩

end AutoPost
